import Mathlib

/-
Shallow embedding of src/langinfo.py (Komodo language-info database).

The Python module defines:
  - class LangInfo: static descriptor data (name, exts, filename_patterns,
    magic_numbers, doctypes, emacs_modes, conforms_to_bases, ...), with the
    recursive methods conforms_to and conformant_attr;
  - class Database: a dict keyed by normalized (lower-cased) language name,
    from which _build_tables derives the extension / filename / magic /
    doctype / emacs-mode lookup tables, queried by the langinfo_from_*
    methods.

Embedding choices:
  - The Python dict _langinfo_from_norm_lang is modelled as an association
    list with insertion-ordered assignment semantics (dictSet replaces in
    place or appends; dictGet finds the unique entry); values() is List.map
    Prod.snd.
  - conforms_to and conformant_attr recurse through the database with no
    cycle guard in the source, so the Python calls can fail to terminate.
    They are embedded with an explicit fuel parameter returning Option:
    none means the computation did not finish within the given fuel; a real
    (terminating) Python result is a value that some fuel (hence every
    larger fuel) produces.
  - Python exceptions are Except.error values (PyError).
  - Compiled regex objects are modelled as opaque match functions, since no
    claim depends on regex internals.
  - _build_tables is one pass filling all tables; here it is split into one
    build function per table, which yields the same tables because the
    tables are filled independently.
-/

set_option autoImplicit false

namespace LangInfoDb

/-- Python exceptions that the embedded code can raise. -/
inductive PyError where
  /-- LangInfoError, raised by Database.langinfo_from_lang on a miss. -/
  | langInfoError
  /-- NameError: a local variable referenced before assignment. -/
  | nameError
  /-- struct.error escaping from struct.unpack. -/
  | structError
  /-- AttributeError (e.g. calling .search on a non-regex). -/
  | attributeError
  /-- TypeError (e.g. len() of a pattern that is not a string). -/
  | typeError
deriving DecidableEq

/-- Python dict lookup on the association-list model. -/
def dictGet {α : Type} : List (String × α) → String → Option α
  | [], _ => none
  | (k2, v) :: rest, k => if k2 = k then some v else dictGet rest k

/-- Python dict assignment: replace the value at an existing key in place,
otherwise append the new binding. -/
def dictSet {α : Type} : List (String × α) → String → α → List (String × α)
  | [], k, v => [(k, v)]
  | (k2, v2) :: rest, k, v =>
    if k2 = k then (k2, v) :: rest else (k2, v2) :: dictSet rest k v

/-- The pattern component of a magic-number rule: a byte string, a compiled
regex (modelled as its search function, given the head bytes and a start
position), or an expected decoded integer value. -/
inductive MagicPattern where
  | str (s : List Char)
  | regex (search : List Char → Nat → Bool)
  | int (n : Nat)

/-- A magic-number declaration: a well-arity tuple (start, format, pattern),
or a tuple whose unpacking into three components raises ValueError. -/
inductive MagicNumber where
  | mk3 (start : Nat) (format : String) (pat : MagicPattern)
  | badArity

/-- A filename_patterns entry: a plain string (exact filename) or a compiled
regex, modelled as its search function. -/
inductive FilenamePattern where
  | str (s : String)
  | regex (search : String → Bool)

/-- A doctypes entry: a well-arity tuple (flavour, name, public_id,
system_id), or a tuple whose 4-way unpacking raises ValueError. -/
inductive Doctype where
  | mk4 (flavour dtname : String) (public_id system_id : Option String)
  | badArity

/-- Static data of one LangInfo subclass (a language descriptor). A Python
attribute left at its class default None is an Option none here. -/
structure LangInfo where
  name : String
  exts : Option (List String) := none
  filename_patterns : Option (List FilenamePattern) := none
  magic_numbers : Option (List MagicNumber) := none
  doctypes : Option (List Doctype) := none
  emacs_modes : Option (List String) := none
  conforms_to_bases : Option (List String) := none
  default_encoding : Option String := none

/-- Database._langinfo_from_norm_lang: dict from normalized lang name to
LangInfo, modelled as an insertion-ordered association list. -/
abbrev Database := List (String × LangInfo)

/-- Python str.lower(), for the ASCII range: lower-case every character.
(Defined over the character list so that it evaluates by kernel
reduction.) -/
def strLower (s : String) : String := ⟨s.data.map Char.toLower⟩

/-- Database._norm_lang_from_lang: lower-case the language name. -/
def norm_lang_from_lang (lang : String) : String := strLower lang

/-- Database.langinfo_from_lang: look up by normalized name, raising
LangInfoError on a miss. -/
def langinfo_from_lang (db : Database) (lang : String) : Except PyError LangInfo :=
  match dictGet db (norm_lang_from_lang lang) with
  | none => .error .langInfoError
  | some li => .ok li

/-- The for-loop of LangInfo.conforms_to over conforms_to_bases: look each
base up in the database (a LangInfoError is passed over), and recurse via
the provided continuation; none (non-termination) propagates. -/
def conformsLoop (db : Database) (rec : LangInfo → Option Bool) :
    List String → Option Bool
  | [] => some false
  | base :: rest =>
    match dictGet db (norm_lang_from_lang base) with
    | none => conformsLoop db rec rest
    | some base_li =>
      match rec base_li with
      | none => none
      | some true => some true
      | some false => conformsLoop db rec rest

/-- LangInfo.conforms_to, fuel-indexed. True if lang equals the name
exactly; else, when conforms_to_bases is truthy, true if lang is a member,
else recurse through each base found in the database. The source has no
visited-name tracking, so cyclic bases make the Python call recurse
forever; here that surfaces as none for every fuel. -/
def conforms_to (db : Database) : Nat → LangInfo → String → Option Bool
  | 0, _, _ => none
  | fuel + 1, li, lang =>
    if lang = li.name then some true
    else
      match li.conforms_to_bases with
      | none => some false
      | some bases =>
        if bases.isEmpty then some false
        else if lang ∈ bases then some true
        else conformsLoop db (fun bli => conforms_to db fuel bli lang) bases

/-- The for-loop of LangInfo.conformant_attr over conforms_to_bases: first
non-None inherited value wins; lookup misses are passed over; none
(non-termination) propagates. -/
def attrLoop {α : Type} (db : Database) (rec : LangInfo → Option (Option α)) :
    List String → Option (Option α)
  | [] => some none
  | base :: rest =>
    match dictGet db (norm_lang_from_lang base) with
    | none => attrLoop db rec rest
    | some base_li =>
      match rec base_li with
      | none => none
      | some (some v) => some (some v)
      | some none => attrLoop db rec rest

/-- LangInfo.conformant_attr, fuel-indexed; the attribute access is
modelled by a projection attrGet (None becomes Option.none). Returns the
directly defined value when non-None, else the first non-None value from
the bases, else None. Outer none means the fuel ran out (the Python call
recurses forever on a cyclic base chain). -/
def conformant_attr {α : Type} (db : Database) (attrGet : LangInfo → Option α) :
    Nat → LangInfo → Option (Option α)
  | 0, _ => none
  | fuel + 1, li =>
    match attrGet li with
    | some v => some (some v)
    | none =>
      attrLoop db (fun bli => conformant_attr db attrGet fuel bli)
        (li.conforms_to_bases.getD [])

/-- LangInfo.is_text: the property just delegates to conforms_to "Text". -/
def is_text (db : Database) (fuel : Nat) (li : LangInfo) : Option Bool :=
  conforms_to db fuel li "Text"

/-- Modelled from the Python struct library (restricted): the standard
size of a single format character, for the UNSIGNED fixed-width integer
characters only. Repeat counts, pad bytes ('x', whose fields yield no
unpacked value), char/string fields ('c'/'s', whose unpacked value is a
string, never equal to an integer pattern), signed and float fields are
all treated as invalid format characters: every format the model accepts
makes unpack()[0] a plain non-negative integer, with no extra error or
type-confusion path. (The source parses some of the excluded formats; no
claim exercises them, so the restriction only narrows what the
well-formed-table theorems quantify over.) -/
def structCharSize (c : Char) : Option Nat :=
  if c = 'B' then some 1
  else if c = 'H' then some 2
  else if c = 'I' ∨ c = 'L' then some 4
  else if c = 'Q' then some 8
  else none

/-- Is this a byte-order/size/alignment prefix character of a struct
format string? -/
def isByteOrderChar (c : Char) : Bool :=
  c = '@' || c = '=' || c = '<' || c = '>' || c = '!'

/-- The field characters of a struct format string, after the optional
byte-order prefix. -/
def structBody (fmt : String) : List Char :=
  match fmt.toList with
  | [] => []
  | c :: rest => if isByteOrderChar c then rest else c :: rest

/-- Sum of the field sizes; none as soon as one character is invalid. -/
def calcsizeBody : List Char → Option Nat
  | [] => some 0
  | c :: rest =>
    match structCharSize c, calcsizeBody rest with
    | some k, some n => some (k + n)
    | _, _ => none

/-- Modelled from the Python struct library (simplified): struct.calcsize,
restricted to formats with at least one valid field character (a format
with no field would make unpack()[0] raise IndexError; such degenerate
formats are treated as invalid here, like any unparseable format). -/
def calcsize (fmt : String) : Option Nat :=
  match structBody fmt with
  | [] => none
  | c :: rest => calcsizeBody (c :: rest)

/-- Big-endian unsigned value of a byte string. -/
def bytesToNatBE (bs : List Char) : Nat :=
  bs.foldl (fun acc c => acc * 256 + c.toNat) 0

/-- Modelled from the Python struct library (restricted): the first
element of struct.unpack(fmt, bytes), decoded as an unsigned integer of
the first field's width, big-endian for the > and ! prefixes and
little-endian otherwise. Under the structCharSize restriction the first
field of every accepted format is an unsigned integer, so unpack()[0]
never yields a string and never raises IndexError. -/
def unpackFirst (fmt : String) (bs : List Char) : Option Nat :=
  match fmt.toList with
  | [] => none
  | c :: rest =>
    let bigEndian := c = '>' || c = '!'
    let body := if isByteOrderChar c then rest else c :: rest
    match body with
    | [] => none
    | f :: _ =>
      match structCharSize f with
      | none => none
      | some k =>
        let field := bs.take k
        some (if bigEndian then bytesToNatBE field else bytesToNatBE field.reverse)

/-- Python slice head_bytes[a:b] for 0 <= a, b. -/
def pySlice (l : List Char) (a b : Nat) : List Char := (l.take b).drop a

/-- The rule-probing loop of Database.langinfo_from_magic, carrying the
current value of the local variable length (none while it is still
unassigned). A tuple of wrong arity is silently skipped; with shebang_only
every non-regex rule is skipped; a "string" rule compares the byte slice
at [start, start+len(pattern)) -- when its pattern is not a string,
len(pattern) raises TypeError before any comparison; a "regex" rule
searches from start (a non-regex pattern has no .search: AttributeError);
any other format is a struct format: when calcsize fails the source warns but
falls through WITHOUT continue, so the following use of length raises
NameError when length was never assigned, and otherwise reuses the stale
length and lets struct.unpack raise struct.error on the bad format when
the slice length matches. -/
def magicGo (head : List Char) (shebang_only : Bool) :
    List (MagicNumber × LangInfo) → Option Nat → Except PyError (Option LangInfo)
  | [], _ => .ok none
  | (mn, li) :: rest, lastLength =>
    match mn with
    | .badArity => magicGo head shebang_only rest lastLength
    | .mk3 start format pat =>
      if shebang_only && (format != "regex") then
        magicGo head shebang_only rest lastLength
      else if format = "string" then
        match pat with
        | .str p =>
          if pySlice head start (start + p.length) = p then .ok (some li)
          else magicGo head shebang_only rest lastLength
        | _ => .error .typeError
      else if format = "regex" then
        match pat with
        | .regex search =>
          if search head start then .ok (some li)
          else magicGo head shebang_only rest lastLength
        | _ => .error .attributeError
      else
        match calcsize format with
        | some length =>
          if (pySlice head start (start + length)).length = length then
            match pat with
            | .int n =>
              if unpackFirst format (pySlice head start (start + length)) = some n
              then .ok (some li)
              else magicGo head shebang_only rest (some length)
            | _ => magicGo head shebang_only rest (some length)
          else magicGo head shebang_only rest (some length)
        | none =>
          match lastLength with
          | none => .error .nameError
          | some length =>
            if (pySlice head start (start + length)).length = length then
              .error .structError
            else magicGo head shebang_only rest lastLength

/-- Database._build_tables, magic part, over an explicit enumeration of
the catalog dict's values: each descriptor's magic_numbers are flattened
contiguously, in declaration order, in the order the descriptors are
enumerated. The source iterates self._langinfo_from_norm_lang.values(),
a Python 2 dict whose iteration order is hash-determined and unspecified:
it visits each stored value exactly once, but not necessarily in
registration order, so order-sensitive statements quantify over an
arbitrary permutation of the stored values passed here. -/
def build_magic_table_from (vals : List LangInfo) : List (MagicNumber × LangInfo) :=
  vals.foldr
    (fun li acc => ((li.magic_numbers.getD []).map (fun mn => (mn, li))) ++ acc) []

/-- build_magic_table_from at one particular admissible enumeration, the
association list's own order; used to run concrete catalogs. -/
def build_magic_table (db : Database) : List (MagicNumber × LangInfo) :=
  build_magic_table_from (db.map Prod.snd)

/-- Database.langinfo_from_magic: probe the flattened magic table in
order; the local variable length starts unassigned. -/
def langinfo_from_magic (db : Database) (head : List Char)
    (shebang_only : Bool) : Except PyError (Option LangInfo) :=
  magicGo head shebang_only (build_magic_table db) none

/-- Database._build_tables, extension part: for each descriptor extension,
lower-cased when the platform is case-insensitive (sys.platform in
("win32", "darwin")), assign it in the extension dict (a later descriptor
overwrites an earlier one on collision). -/
def build_ext_table (caseInsensitive : Bool) (db : Database) :
    List (String × LangInfo) :=
  (db.map Prod.snd).foldl
    (fun table li =>
      (li.exts.getD []).foldl
        (fun t ext =>
          dictSet t (if caseInsensitive then strLower ext else ext) li) table)
    []

/-- Database.langinfo_from_ext: lower-case the query on a case-insensitive
platform, then a plain dict lookup (None on a miss). -/
def langinfo_from_ext (caseInsensitive : Bool) (db : Database)
    (ext : String) : Option LangInfo :=
  dictGet (build_ext_table caseInsensitive db)
    (if caseInsensitive then strLower ext else ext)

/-- Python truthiness of an optional string (None and "" are falsy). -/
def truthyStr : Option String → Bool
  | none => false
  | some s => !s.isEmpty

/-- Database._build_tables, doctype part: tuples of wrong arity are dropped
(logged); a truthy public_id (resp. system_id) is assigned in the public-id
(resp. system-id) dict, the last one winning. Returns (by public id, by
system id). -/
def build_doctype_tables (db : Database) :
    List (String × LangInfo) × List (String × LangInfo) :=
  (db.map Prod.snd).foldl
    (fun tables li =>
      (li.doctypes.getD []).foldl
        (fun ts dt =>
          match dt with
          | .badArity => ts
          | .mk4 _ _ pid sid =>
            let pubT := if truthyStr pid then dictSet ts.1 (pid.getD "") li else ts.1
            let sysT := if truthyStr sid then dictSet ts.2 (sid.getD "") li else ts.2
            (pubT, sysT))
        tables)
    ([], [])

/-- Database.langinfo_from_doctype: when public_id is given and present in
the public-id table return its descriptor; otherwise when system_id is
given and present in the system-id table return that; otherwise None. -/
def langinfo_from_doctype (db : Database)
    (public_id system_id : Option String) : Option LangInfo :=
  let ts := build_doctype_tables db
  match public_id.bind (dictGet ts.1) with
  | some li => some li
  | none =>
    match system_id.bind (dictGet ts.2) with
    | some li => some li
    | none => none

/-- Database._build_tables, emacs-mode part. -/
def build_emacs_table (db : Database) : List (String × LangInfo) :=
  (db.map Prod.snd).foldl
    (fun t li => (li.emacs_modes.getD []).foldl (fun t2 em => dictSet t2 em li) t)
    []

/-- Database.langinfo_from_emacs_mode: mode table first, then retry the
mode as a normalized language name, else None. -/
def langinfo_from_emacs_mode (db : Database) (em : String) : Option LangInfo :=
  match dictGet (build_emacs_table db) em with
  | some li => some li
  | none => dictGet db (norm_lang_from_lang em)

/-- Database._build_tables, filename part: split filename_patterns into the
exact-name dict and the ordered regex list. -/
def build_filename_tables (db : Database) :
    List (String × LangInfo) × List ((String → Bool) × LangInfo) :=
  (db.map Prod.snd).foldl
    (fun ts li =>
      (li.filename_patterns.getD []).foldl
        (fun ts2 fp =>
          match fp with
          | .str s => (dictSet ts2.1 s li, ts2.2)
          | .regex f => (ts2.1, ts2.2 ++ [(f, li)]))
        ts)
    ([], [])

/-- The regex half of Database.langinfo_from_filename: first pattern whose
search succeeds. -/
def filenameReLoop : List ((String → Bool) × LangInfo) → String → Option LangInfo
  | [], _ => none
  | (f, li) :: rest, fn => if f fn then some li else filenameReLoop rest fn

/-- Database.langinfo_from_filename: exact table first, then the regex
list, else None. -/
def langinfo_from_filename (db : Database) (fn : String) : Option LangInfo :=
  let ts := build_filename_tables db
  match dictGet ts.1 fn with
  | some li => some li
  | none => filenameReLoop ts.2 fn

/-- A magic rule the probing loop can process without raising: any tuple
of wrong arity (it is skipped), a "string" rule whose pattern really is a
byte string (len() of any other pattern raises TypeError), a "regex" rule
whose pattern really is a regex (anything else has no .search:
AttributeError), or a struct rule whose format calcsize can parse under
the restricted model (so unpack()[0] is an integer and cannot raise). -/
def wellFormedRule : MagicNumber → Bool
  | .badArity => true
  | .mk3 _ format pat =>
    if format = "string" then
      match pat with
      | .str _ => true
      | _ => false
    else if format = "regex" then
      match pat with
      | .regex _ => true
      | _ => false
    else (calcsize format).isSome

/-- One rule's structural-match outcome, mirroring the corresponding
iteration of magicGo on a well-formed rule (a rule skipped by the
shebang_only filter, or of wrong arity, counts as a non-match). -/
def ruleMatches (head : List Char) (shebang_only : Bool) : MagicNumber → Bool
  | .badArity => false
  | .mk3 start format pat =>
    if shebang_only && (format != "regex") then false
    else if format = "string" then
      match pat with
      | .str p => if pySlice head start (start + p.length) = p then true else false
      | _ => false
    else if format = "regex" then
      match pat with
      | .regex search => search head start
      | _ => false
    else
      match calcsize format with
      | some length =>
        if (pySlice head start (start + length)).length = length then
          match pat with
          | .int n =>
            if unpackFirst format (pySlice head start (start + length)) = some n
            then true else false
          | _ => false
        else false
      | none => false

/-- The Python call conforms_to(li, lang) never returns: every fuel runs
out. -/
def conformsDiverges (db : Database) (li : LangInfo) (lang : String) : Prop :=
  ∀ fuel, conforms_to db fuel li lang = none

/-- The Python call conformant_attr(li, attr) never returns: every fuel
runs out. -/
def attrDiverges {α : Type} (db : Database) (attrGet : LangInfo → Option α)
    (li : LangInfo) : Prop :=
  ∀ fuel, conformant_attr db attrGet fuel li = none

/- Concrete catalogs used by the claim theorems. -/

/-- A descriptor whose conforms_to chain is a direct self-cycle. -/
def cycA : LangInfo := { name := "A", exts := some [".a"], conforms_to_bases := some ["A"] }

/-- Catalog containing only the self-cyclic descriptor. -/
def cdbC1 : Database := [("a", cycA)]

/-- TextLangInfo from the source module. -/
def textLi : LangInfo :=
  { name := "Text", exts := some [".txt", ".text"],
    filename_patterns :=
      some [.str "README", .str "COPYING", .str "LICENSE", .str "MANIFEST"] }

/-- Catalog containing only the Text descriptor. -/
def textDb : Database := [("text", textLi)]

/-- A descriptor with a struct-format magic rule whose format string "Z"
struct.calcsize cannot parse. -/
def c2Bad : LangInfo := { name := "BadStruct", magic_numbers := some [.mk3 0 "Z" (.int 1)] }

/-- A descriptor with a valid shebang-style string magic rule. -/
def c2Good : LangInfo :=
  { name := "Shebang", magic_numbers := some [.mk3 0 "string" (.str ['#', '!'])] }

/-- A descriptor carrying a magic tuple of wrong arity. -/
def c2Arity : LangInfo := { name := "BadArity", magic_numbers := some [.badArity] }

/-- Catalog with the unparseable struct rule first and a valid rule after it. -/
def c2Db : Database := [("badstruct", c2Bad), ("shebang", c2Good)]

/-- The same catalog without the unparseable rule. -/
def c2DbGood : Database := [("shebang", c2Good)]

/-- Catalog with a wrong-arity magic tuple first and a valid rule after it. -/
def c2DbArity : Database := [("badarity", c2Arity), ("shebang", c2Good)]

/-- Earlier-registered descriptor whose string rule matches byte 0. -/
def c4Li1 : LangInfo := { name := "M1", magic_numbers := some [.mk3 0 "string" (.str ['#'])] }

/-- Later-registered descriptor whose string rule matches bytes 0..1. -/
def c4Li2 : LangInfo :=
  { name := "M2", magic_numbers := some [.mk3 0 "string" (.str ['#', '!'])] }

/-- Catalog in which both magic rules match the same head bytes. -/
def c4Db : Database := [("m1", c4Li1), ("m2", c4Li2)]

/-- Descriptor registered with doctype public id P1. -/
def c5X : LangInfo := { name := "X", doctypes := some [.mk4 "doctype" "x" (some "P1") none] }

/-- Descriptor registered with doctype system id S1. -/
def c5Y : LangInfo := { name := "Y", doctypes := some [.mk4 "doctype" "y" none (some "S1")] }

/-- Catalog for the doctype precedence scenario. -/
def c5Db : Database := [("x", c5X), ("y", c5Y)]

/-- A descriptor whose magic rule has offset 5 and an empty string pattern. -/
def c6Empty : LangInfo :=
  { name := "EmptyPattern", magic_numbers := some [.mk3 5 "string" (.str [])] }

/-- Catalog containing only the empty-pattern rule. -/
def c6Db : Database := [("emptypattern", c6Empty)]

/-- A plain descriptor used to instantiate the short-window lemma. -/
def c6WLi : LangInfo := { name := "W6" }

/-- Descriptor A with bases Z (cyclic) before B. -/
def c8A : LangInfo := { name := "A", conforms_to_bases := some ["Z", "B"] }

/-- Self-cyclic descriptor Z. -/
def c8Z : LangInfo := { name := "Z", conforms_to_bases := some ["Z"] }

/-- Descriptor B with base C. -/
def c8B : LangInfo := { name := "B", conforms_to_bases := some ["C"] }

/-- Descriptor C, the transitive target. -/
def c8C : LangInfo := { name := "C" }

/-- Catalog with the chain A -> B -> C plus the cyclic base Z on A. -/
def c8Db : Database := [("a", c8A), ("z", c8Z), ("b", c8B), ("c", c8C)]

/-- Acyclic A -> B -> C chain for the 3-level scenario. -/
def w8A : LangInfo := { name := "A", conforms_to_bases := some ["B"] }

/-- Middle descriptor of the acyclic chain. -/
def w8B : LangInfo := { name := "B", conforms_to_bases := some ["C"] }

/-- Leaf descriptor of the acyclic chain. -/
def w8C : LangInfo := { name := "C" }

/-- Catalog of the acyclic 3-level chain. -/
def w8Db : Database := [("a", w8A), ("b", w8B), ("c", w8C)]

/-- Descriptor claiming the lower-case extension. -/
def c9Low : LangInfo := { name := "PyLow", exts := some [".py"] }

/-- Descriptor claiming the upper-case extension. -/
def c9Up : LangInfo := { name := "PyUp", exts := some [".PY"] }

/-- Catalog in which distinct descriptors claim .py and .PY. -/
def c9Db : Database := [("pylow", c9Low), ("pyup", c9Up)]

/- Helper lemmas. -/

theorem pySlice_length (l : List Char) (a b : Nat) :
    (pySlice l a b).length = min b l.length - a := by
  simp [pySlice]

theorem structCharSize_pos (c : Char) (k : Nat) :
    structCharSize c = some k → 1 ≤ k := by
  unfold structCharSize
  split_ifs <;> intro h <;> simp_all <;> omega

theorem calcsizeBody_pos (c : Char) (rest : List Char) (n : Nat) :
    calcsizeBody (c :: rest) = some n → 1 ≤ n := by
  unfold calcsizeBody
  cases hc : structCharSize c with
  | none => intro h; cases h
  | some k =>
    cases hr : calcsizeBody rest with
    | none => intro h; cases h
    | some m =>
      intro h
      have hk := structCharSize_pos c k hc
      cases h
      omega

theorem build_magic_table_from_eq_flatMap (l : List LangInfo) :
    build_magic_table_from l
      = l.flatMap (fun li => (li.magic_numbers.getD []).map (fun mn => (mn, li))) := by
  induction l with
  | nil => rfl
  | cons x xs ih =>
    have h1 : build_magic_table_from (x :: xs)
        = ((x.magic_numbers.getD []).map (fun mn => (mn, x)))
            ++ build_magic_table_from xs := rfl
    rw [h1, ih, List.flatMap_cons]

theorem calcsize_pos (fmt : String) (n : Nat) :
    calcsize fmt = some n → 1 ≤ n := by
  unfold calcsize
  cases hb : structBody fmt with
  | nil => intro h; cases h
  | cons c rest => exact calcsizeBody_pos c rest n

/- Claim theorems. -/

/-- Claim C10: is_text returns exactly the boolean of conforms_to on the
target "Text"; it is a pure derived query with no separate state. In the
source, the property body is literally a call to conforms_to("Text"), so
the two computations agree at every database, fuel and descriptor. -/
theorem is_text_eq_conforms_to_text (db : Database) (fuel : Nat) (li : LangInfo) :
    is_text db fuel li = conforms_to db fuel li "Text" := rfl

/-- Claim C3, counterexample: the name check of conforms_to compares the
target to the descriptor name exactly, not after normalization: the Text
descriptor and the target "text" normalize to the same key, yet
conforms_to returns false. -/
theorem conforms_name_not_normalized :
    norm_lang_from_lang "text" = norm_lang_from_lang "Text"
    ∧ conforms_to textDb 5 textLi "text" = some false := by
  exact ⟨by decide, by decide⟩

/-- Claim C3, amended: conforms_to(d, t) is true whenever t equals d.name
exactly (the comparison is case-sensitive); in particular
conforms_to(d, d.name) is true for every descriptor in any catalog
(reflexivity), at any positive fuel. -/
theorem conforms_to_reflexive (db : Database) (li : LangInfo) (fuel : Nat) :
    conforms_to db (fuel + 1) li li.name = some true := by
  simp [conforms_to]

/-- Claim C2: probing a magic table whose first rule has the unparseable
struct format "Z" raises NameError (the source warns about the bad format
but, missing a continue, falls through to use the never-assigned local
length): the valid rule after it is never probed even though it matches,
as it does when the bad rule is absent. A wrong-arity tuple, by contrast,
is dropped and the later valid rule still matches. -/
theorem magic_bad_struct_format_raises :
    langinfo_from_magic c2Db ['#', '!', 'x'] false = .error .nameError
    ∧ langinfo_from_magic c2DbGood ['#', '!', 'x'] false = .ok (some c2Good)
    ∧ langinfo_from_magic c2DbArity ['#', '!', 'x'] false = .ok (some c2Good) :=
  ⟨rfl, rfl, rfl⟩

/-- Claim C5: when a supplied public id is found in the public-id table,
langinfo_from_doctype returns that descriptor regardless of the system id;
the system-id table is consulted exactly when the public id is absent or
unmatched. -/
theorem doctype_public_id_precedence (db : Database) (pid sid : Option String) :
    (∀ X, pid.bind (dictGet (build_doctype_tables db).1) = some X →
       langinfo_from_doctype db pid sid = some X)
    ∧ (pid.bind (dictGet (build_doctype_tables db).1) = none →
       langinfo_from_doctype db pid sid = sid.bind (dictGet (build_doctype_tables db).2)) := by
  constructor
  · intro X h
    simp only [langinfo_from_doctype, h]
  · intro h
    simp only [langinfo_from_doctype, h]
    cases hs : sid.bind (dictGet (build_doctype_tables db).2) <;> simp [hs]

/-- Claim C5, witness: with X registered under public id P1 and Y under
system id S1, the query with both ids returns X. -/
theorem doctype_public_id_precedence_witness :
    langinfo_from_doctype c5Db (some "P1") (some "S1") = some c5X :=
  (doctype_public_id_precedence c5Db (some "P1") (some "S1")).1 c5X rfl

/-- Claim C9: with the case-insensitive platform profile, extensions are
lower-cased both at table build and at query time, so queries agreeing up
to case agree; with the case-sensitive profile, distinct descriptors
claiming .py and .PY are returned for the respective exact-case queries. -/
theorem ext_case_sensitivity (db : Database) (e1 e2 : String) :
    (strLower e1 = strLower e2 →
       langinfo_from_ext true db e1 = langinfo_from_ext true db e2)
    ∧ (langinfo_from_ext false c9Db ".py" = some c9Low
       ∧ langinfo_from_ext false c9Db ".PY" = some c9Up
       ∧ c9Low ≠ c9Up) := by
  refine ⟨fun h => ?_, rfl, rfl, fun h => ?_⟩
  · simp [langinfo_from_ext, h]
  · have hn := congrArg LangInfo.name h
    exact absurd hn (by decide)

/-- Claim C9, witness: .py and .PY resolve to the same descriptor on the
case-insensitive profile over the same catalog. -/
theorem ext_case_sensitivity_witness :
    langinfo_from_ext true c9Db ".py" = langinfo_from_ext true c9Db ".PY" :=
  (ext_case_sensitivity c9Db ".py" ".PY").1 (by decide)

/-- Claim C7: name-based resolution raises LangInfoError exactly on a
normalized-name miss and returns the descriptor on a hit, while
extension, filename, doctype and emacs-mode queries return none on a
miss; the magic query, however, is NOT exception-free: on a table whose
first rule has an unparseable struct format it raises NameError (the
missing continue after the calcsize warning), contradicting the claim
that only name-based resolution raises. -/
theorem only_name_resolution_raises :
    (∀ (db : Database) (lang : String),
       dictGet db (norm_lang_from_lang lang) = none →
       langinfo_from_lang db lang = .error .langInfoError)
    ∧ (∀ (db : Database) (lang : String) (li : LangInfo),
       dictGet db (norm_lang_from_lang lang) = some li →
       langinfo_from_lang db lang = .ok li)
    ∧ langinfo_from_ext false [] ".py" = none
    ∧ langinfo_from_filename [] "Makefile" = none
    ∧ langinfo_from_doctype [] (some "P") (some "S") = none
    ∧ langinfo_from_emacs_mode [] "python" = none
    ∧ langinfo_from_magic c2Db ['#', '!', 'x'] false = .error .nameError := by
  refine ⟨fun db lang h => ?_, fun db lang li h => ?_, rfl, rfl, rfl, rfl, rfl⟩
  · simp only [langinfo_from_lang, h]
  · simp only [langinfo_from_lang, h]

/-- Claim C7, witness: resolving a name against the empty catalog raises
LangInfoError. -/
theorem only_name_resolution_raises_witness :
    langinfo_from_lang [] "Python" = .error .langInfoError :=
  only_name_resolution_raises.1 [] "Python" rfl

/-- On the catalog whose only descriptor is the self-cycle A -> A, a
conforms_to query for any target other than "A" never returns. -/
theorem cycA_conforms_diverges (t : String) (ht : t ≠ "A") :
    ∀ fuel, conforms_to cdbC1 fuel cycA t = none := by
  intro fuel
  induction fuel with
  | zero => rfl
  | succ n ih =>
    have hstep : conforms_to cdbC1 (n + 1) cycA t
        = if t = "A" then some true
          else if t ∈ (["A"] : List String) then some true
          else
            match conforms_to cdbC1 n cycA t with
            | none => none
            | some true => some true
            | some false =>
                conformsLoop cdbC1 (fun bli => conforms_to cdbC1 n bli t) [] := rfl
    rw [hstep, if_neg ht, if_neg (by simpa using ht), ih]

/-- On the self-cycle catalog, conformant_attr for an attribute the cyclic
descriptor leaves unset never returns. -/
theorem cycA_attr_diverges :
    ∀ fuel,
      conformant_attr cdbC1 (fun li => li.default_encoding) fuel cycA = none := by
  intro fuel
  induction fuel with
  | zero => rfl
  | succ n ih =>
    have hstep : conformant_attr cdbC1 (fun li => li.default_encoding) (n + 1) cycA
        = attrLoop cdbC1
            (fun bli => conformant_attr cdbC1 (fun li => li.default_encoding) n bli)
            ["A"] := rfl
    have hd : dictGet cdbC1 (norm_lang_from_lang "A") = some cycA := rfl
    rw [hstep]
    simp only [attrLoop, hd, ih]

/-- Claim C1, counterexample: with the direct self-cycle A -> A, neither
conforms_to (here queried for the unrelated target "Text") nor
conformant_attr (for the unset default_encoding attribute) terminates:
the source tracks no visited names, so the revisit recurses forever
instead of being treated as a non-match. -/
theorem conforms_cycle_counterexample :
    conformsDiverges cdbC1 cycA "Text"
    ∧ attrDiverges cdbC1 (fun li => li.default_encoding) cycA :=
  ⟨cycA_conforms_diverges "Text" (by decide), cycA_attr_diverges⟩

/-- Claim C1, amended: on a cyclic conforms_to chain the two resolvers
are NOT cycle-safe. conforms_to terminates only when the query is settled
before the cycle recurses (target equal to the name, or listed among the
bases, both "A" here) and otherwise never returns, for every non-"A"
target; conformant_attr terminates when the attribute is directly set
(exts here) and never returns when it is unset along the cycle. -/
theorem conforms_cycle_behavior :
    (∀ t, t ≠ "A" → conformsDiverges cdbC1 cycA t)
    ∧ conforms_to cdbC1 1 cycA "A" = some true
    ∧ attrDiverges cdbC1 (fun li => li.default_encoding) cycA
    ∧ conformant_attr cdbC1 (fun li => li.exts) 1 cycA = some (some [".a"]) :=
  ⟨fun t ht => cycA_conforms_diverges t ht, by decide, cycA_attr_diverges, by decide⟩

/-- Claim C1, witness: the amended statement instantiated at the target
"B". -/
theorem conforms_cycle_behavior_witness :
    conformsDiverges cdbC1 cycA "B" :=
  conforms_cycle_behavior.1 "B" (by decide)

/-- In the C8 catalog, the self-cyclic base Z never answers a query for
"C". -/
theorem c8Z_diverges : ∀ fuel, conforms_to c8Db fuel c8Z "C" = none := by
  intro fuel
  induction fuel with
  | zero => rfl
  | succ n ih =>
    have hstep : conforms_to c8Db (n + 1) c8Z "C"
        = conformsLoop c8Db (fun bli => conforms_to c8Db n bli "C") ["Z"] := rfl
    have hd : dictGet c8Db (norm_lang_from_lang "Z") = some c8Z := rfl
    rw [hstep]
    simp only [conformsLoop, hd, ih]

/-- In the C8 catalog, A itself never answers a query for "C": its first
base Z loops before the chain through B is ever tried. -/
theorem c8A_diverges : ∀ fuel, conforms_to c8Db fuel c8A "C" = none := by
  intro fuel
  cases fuel with
  | zero => rfl
  | succ n =>
    have hstep : conforms_to c8Db (n + 1) c8A "C"
        = conformsLoop c8Db (fun bli => conforms_to c8Db n bli "C") ["Z", "B"] := rfl
    have hd : dictGet c8Db (norm_lang_from_lang "Z") = some c8Z := rfl
    rw [hstep]
    simp only [conformsLoop, hd, c8Z_diverges n]

/-- If the base list contains a name resolving to a descriptor on which
the recursive check returns true, the conforms_to loop cannot return
false. -/
theorem conformsLoop_mem_true (db : Database) (rec : LangInfo → Option Bool)
    (B : LangInfo) (Bname : String)
    (hlook : dictGet db (norm_lang_from_lang Bname) = some B)
    (hrec : rec B = some true) :
    ∀ (l : List String) (r : Bool),
      Bname ∈ l → conformsLoop db rec l = some r → r = true := by
  intro l
  induction l with
  | nil => intro r hmem; cases hmem
  | cons b rest ih =>
    intro r hmem hres
    rcases List.mem_cons.mp hmem with heq | hmem2
    · subst heq
      simp only [conformsLoop, hlook, hrec, Option.some.injEq] at hres
      exact hres.symm
    · cases hb : dictGet db (norm_lang_from_lang b) with
      | none =>
        simp only [conformsLoop, hb] at hres
        exact ih r hmem2 hres
      | some bli =>
        cases hrb : rec bli with
        | none =>
          simp only [conformsLoop, hb, hrb] at hres
          exact Option.noConfusion hres
        | some bb =>
          cases bb
          · simp only [conformsLoop, hb, hrb] at hres
            exact ih r hmem2 hres
          · simp only [conformsLoop, hb, hrb, Option.some.injEq] at hres
            exact hres.symm

/-- Claim C8, amended: declared two-step conformance cannot be answered
false. If B's name is in A's bases, B's catalog entry is B, and C's name
is in B's bases, then a terminating conforms_to(A, C) call returns true;
termination itself is not guaranteed, since an earlier base of A may lead
into a cycle. -/
theorem conforms_transitive_no_false
    (db : Database) (A B : LangInfo) (Bname Cname : String)
    (la lb : List String) (fuel : Nat)
    (hA : A.conforms_to_bases = some la) (hBmem : Bname ∈ la)
    (hlook : dictGet db (norm_lang_from_lang Bname) = some B)
    (hB : B.conforms_to_bases = some lb) (hCmem : Cname ∈ lb) :
    conforms_to db (fuel + 2) A Cname ≠ some false := by
  intro hres
  have hBtrue : conforms_to db (fuel + 1) B Cname = some true := by
    have hstepB : conforms_to db (fuel + 1) B Cname
        = if Cname = B.name then some true
          else if lb.isEmpty then some false
          else if Cname ∈ lb then some true
          else conformsLoop db (fun bli => conforms_to db fuel bli Cname) lb := by
      simp only [conforms_to]
      rw [hB]
    have hlbe : lb.isEmpty = false := by
      cases lb with
      | nil => cases hCmem
      | cons x xs => rfl
    rw [hstepB]
    by_cases hc : Cname = B.name
    · rw [if_pos hc]
    · rw [if_neg hc, hlbe, if_neg Bool.false_ne_true, if_pos hCmem]
  have hstepA : conforms_to db (fuel + 2) A Cname
      = if Cname = A.name then some true
        else if la.isEmpty then some false
        else if Cname ∈ la then some true
        else conformsLoop db (fun bli => conforms_to db (fuel + 1) bli Cname) la := by
    simp only [conforms_to]
    rw [hA]
  have hlae : la.isEmpty = false := by
    cases la with
    | nil => cases hBmem
    | cons x xs => rfl
  rw [hstepA] at hres
  by_cases hc1 : Cname = A.name
  · rw [if_pos hc1] at hres
    simp at hres
  · rw [if_neg hc1, hlae, if_neg Bool.false_ne_true] at hres
    by_cases hc2 : Cname ∈ la
    · rw [if_pos hc2] at hres
      simp at hres
    · rw [if_neg hc2] at hres
      have hft := conformsLoop_mem_true db
        (fun bli => conforms_to db (fuel + 1) bli Cname) B Bname hlook hBtrue
        la false hBmem hres
      exact Bool.noConfusion hft

/-- Claim C8, counterexample: in the catalog with A -> [Z, B], the cyclic
Z -> [Z], B -> [C] and C, the claim's hypotheses hold (B is declared in
A's bases, C in B's bases, all four descriptors are registered), yet
conforms_to(A, "C") never returns: the depth-first walk enters the cycle
at the earlier base Z before it would reach B, so it is not true. -/
theorem conforms_transitivity_counterexample :
    c8A.conforms_to_bases = some ["Z", "B"]
    ∧ "B" ∈ (["Z", "B"] : List String)
    ∧ dictGet c8Db (norm_lang_from_lang "B") = some c8B
    ∧ c8B.conforms_to_bases = some ["C"]
    ∧ "C" ∈ (["C"] : List String)
    ∧ dictGet c8Db (norm_lang_from_lang "C") = some c8C
    ∧ conformsDiverges c8Db c8A "C" :=
  ⟨rfl, by decide, rfl, rfl, by decide, rfl, c8A_diverges⟩

/-- Claim C8, witness: on the acyclic 3-level chain A -> B -> C the
conforms_to call does not return false (and indeed returns true). -/
theorem conforms_transitive_no_false_witness :
    conforms_to w8Db (0 + 2) w8A "C" ≠ some false :=
  conforms_transitive_no_false w8Db w8A w8B "B" "C" ["B"] ["C"] 0
    rfl (by decide) rfl rfl (by decide)

/-- Claim C6, counterexample: a magic rule with offset 5 and an EMPTY
string pattern has required span 5 + 0 = 5; probing the 2-byte window
"ab", which is shorter than that span, does not treat the rule as a
non-match: the empty slice equals the empty pattern, so the rule
matches and its descriptor is returned. -/
theorem magic_short_window_counterexample :
    (['a', 'b'] : List Char).length < 5 + ([] : List Char).length
    ∧ langinfo_from_magic c6Db ['a', 'b'] false = .ok (some c6Empty) :=
  ⟨by decide, rfl⟩

/-- Claim C6, amended: a byte window shorter than a rule's required span
is a non-match and probing continues without raising, for string rules
with a NONEMPTY pattern (an empty pattern matches every window, even a
too-short one) and for struct rules with a parseable format (the slice
length test fails, so the rule is skipped and the loop continues with the
length variable updated). -/
theorem magic_short_window_no_match :
    (∀ (head : List Char) (sb : Bool) (start : Nat) (p : List Char)
       (li : LangInfo) (rest : List (MagicNumber × LangInfo)) (last : Option Nat),
       p ≠ [] → head.length < start + p.length →
       magicGo head sb ((MagicNumber.mk3 start "string" (.str p), li) :: rest) last
         = magicGo head sb rest last)
    ∧ (∀ (head : List Char) (start : Nat) (fmt : String) (pat : MagicPattern)
         (li : LangInfo) (rest : List (MagicNumber × LangInfo))
         (last : Option Nat) (n : Nat),
       fmt ≠ "string" → fmt ≠ "regex" → calcsize fmt = some n →
       head.length < start + n →
       magicGo head false ((MagicNumber.mk3 start fmt pat, li) :: rest) last
         = magicGo head false rest (some n)) := by
  constructor
  · intro head sb start p li rest last hp hlen
    have hne : pySlice head start (start + p.length) ≠ p := by
      intro he
      have hl := congrArg List.length he
      rw [pySlice_length] at hl
      have hppos : 0 < p.length := List.length_pos.mpr hp
      omega
    cases sb with
    | true => rfl
    | false =>
      have hstep : magicGo head false
            ((MagicNumber.mk3 start "string" (.str p), li) :: rest) last
          = if pySlice head start (start + p.length) = p then .ok (some li)
            else magicGo head false rest last := rfl
      rw [hstep, if_neg hne]
  · intro head start fmt pat li rest last n h1 h2 hcs hlen
    have hnpos := calcsize_pos fmt n hcs
    have hne : ¬ (pySlice head start (start + n)).length = n := by
      rw [pySlice_length]
      omega
    have hand : (false && (fmt != "regex")) = false := rfl
    simp only [magicGo]
    simp [hand, h1, h2, hcs, hne]

/-- Claim C6, witness: the amended statement instantiated with a 2-byte
shebang pattern against a 1-byte window, and a 2-byte big-endian struct
rule against the same 1-byte window. -/
theorem magic_short_window_no_match_witness :
    (magicGo ['#'] false [(MagicNumber.mk3 0 "string" (.str ['#', '!']), c6WLi)] none
       = magicGo ['#'] false [] none)
    ∧ (magicGo ['#'] false [(MagicNumber.mk3 0 ">H" (.int 5), c6WLi)] none
       = magicGo ['#'] false [] (some 2)) :=
  ⟨magic_short_window_no_match.1 ['#'] false 0 ['#', '!'] c6WLi [] none
      (by decide) (by decide),
   magic_short_window_no_match.2 ['#'] 0 ">H" (.int 5) c6WLi [] none 2
      (by decide) (by decide) rfl (by decide)⟩

/-- The probing loop on a table of well-formed rules raises nothing and
returns exactly the first rule (in table order) whose structural match
succeeds; the value of the length variable carried in does not matter. -/
theorem magicGo_eq_find (head : List Char) (sb : Bool) :
    ∀ (table : List (MagicNumber × LangInfo)) (last : Option Nat),
      (∀ r ∈ table, wellFormedRule r.1 = true) →
      magicGo head sb table last
        = .ok ((table.find? (fun r => ruleMatches head sb r.1)).map Prod.snd) := by
  intro table
  induction table with
  | nil => intro last hwf; rfl
  | cons r rest ih =>
    intro last hwf
    obtain ⟨mn, li⟩ := r
    have hwfrest : ∀ x ∈ rest, wellFormedRule x.1 = true :=
      fun x hx => hwf x (List.mem_cons_of_mem _ hx)
    have hwfr : wellFormedRule mn = true := hwf (mn, li) (List.mem_cons_self _ _)
    cases mn with
    | badArity =>
      have hgo : magicGo head sb ((MagicNumber.badArity, li) :: rest) last
          = magicGo head sb rest last := rfl
      have hm : ruleMatches head sb MagicNumber.badArity = false := rfl
      rw [hgo, ih last hwfrest]
      simp [List.find?, hm]
    | mk3 start format pat =>
      by_cases hsb : (sb && (format != "regex")) = true
      · have hgo : magicGo head sb ((MagicNumber.mk3 start format pat, li) :: rest) last
            = magicGo head sb rest last := by
          simp [magicGo, hsb]
        have hm : ruleMatches head sb (MagicNumber.mk3 start format pat) = false := by
          simp [ruleMatches, hsb]
        rw [hgo, ih last hwfrest]
        simp [List.find?, hm]
      · by_cases hstr : format = "string"
        · have hsbf : sb = false := by
            cases sb with
            | false => rfl
            | true => exact absurd (by rw [hstr]; decide) hsb
          subst hsbf
          subst hstr
          cases pat with
          | str p =>
            by_cases hsl : pySlice head start (start + p.length) = p
            · have hgo : magicGo head false
                  ((MagicNumber.mk3 start "string" (.str p), li) :: rest) last
                  = .ok (some li) := by
                simp [magicGo, hsl]
              have hm : ruleMatches head false
                  (MagicNumber.mk3 start "string" (.str p)) = true := by
                simp [ruleMatches, hsl]
              rw [hgo]
              simp [List.find?, hm]
            · have hgo : magicGo head false
                  ((MagicNumber.mk3 start "string" (.str p), li) :: rest) last
                  = magicGo head false rest last := by
                simp [magicGo, hsl]
              have hm : ruleMatches head false
                  (MagicNumber.mk3 start "string" (.str p)) = false := by
                simp [ruleMatches, hsl]
              rw [hgo, ih last hwfrest]
              simp [List.find?, hm]
          | regex f =>
            exact Bool.noConfusion (show (false : Bool) = true from hwfr)
          | int n =>
            exact Bool.noConfusion (show (false : Bool) = true from hwfr)
        · by_cases hre : format = "regex"
          · subst hre
            cases pat with
            | regex f =>
              cases hs : f head start with
              | true =>
                have hgo : magicGo head sb
                    ((MagicNumber.mk3 start "regex" (.regex f), li) :: rest) last
                    = .ok (some li) := by
                  simp [magicGo, hs]
                have hm : ruleMatches head sb
                    (MagicNumber.mk3 start "regex" (.regex f)) = true := by
                  simp [ruleMatches, hs]
                rw [hgo]
                simp [List.find?, hm]
              | false =>
                have hgo : magicGo head sb
                    ((MagicNumber.mk3 start "regex" (.regex f), li) :: rest) last
                    = magicGo head sb rest last := by
                  simp [magicGo, hs]
                have hm : ruleMatches head sb
                    (MagicNumber.mk3 start "regex" (.regex f)) = false := by
                  simp [ruleMatches, hs]
                rw [hgo, ih last hwfrest]
                simp [List.find?, hm]
            | str p =>
              exact Bool.noConfusion (show (false : Bool) = true from hwfr)
            | int n =>
              exact Bool.noConfusion (show (false : Bool) = true from hwfr)
          · have hsbf : sb = false := by
              cases sb with
              | false => rfl
              | true => exact absurd (by simp [bne_iff_ne, hre]) hsb
            subst hsbf
            have hcs : ∃ n, calcsize format = some n := by
              have h := hwfr
              simp [wellFormedRule, hstr, hre, Option.isSome_iff_exists] at h
              exact h
            obtain ⟨len, hlen⟩ := hcs
            by_cases hbl : (pySlice head start (start + len)).length = len
            · cases pat with
              | int n =>
                by_cases hun :
                    unpackFirst format (pySlice head start (start + len)) = some n
                · have hgo : magicGo head false
                      ((MagicNumber.mk3 start format (.int n), li) :: rest) last
                      = .ok (some li) := by
                    simp [magicGo, hstr, hre, hlen, hbl, hun]
                  have hm : ruleMatches head false
                      (MagicNumber.mk3 start format (.int n)) = true := by
                    simp [ruleMatches, hstr, hre, hlen, hbl, hun]
                  rw [hgo]
                  simp [List.find?, hm]
                · have hgo : magicGo head false
                      ((MagicNumber.mk3 start format (.int n), li) :: rest) last
                      = magicGo head false rest (some len) := by
                    simp [magicGo, hstr, hre, hlen, hbl, hun]
                  have hm : ruleMatches head false
                      (MagicNumber.mk3 start format (.int n)) = false := by
                    simp [ruleMatches, hstr, hre, hlen, hbl, hun]
                  rw [hgo, ih (some len) hwfrest]
                  simp [List.find?, hm]
              | str p =>
                have hgo : magicGo head false
                    ((MagicNumber.mk3 start format (.str p), li) :: rest) last
                    = magicGo head false rest (some len) := by
                  simp [magicGo, hstr, hre, hlen, hbl]
                have hm : ruleMatches head false
                    (MagicNumber.mk3 start format (.str p)) = false := by
                  simp [ruleMatches, hstr, hre, hlen, hbl]
                rw [hgo, ih (some len) hwfrest]
                simp [List.find?, hm]
              | regex f =>
                have hgo : magicGo head false
                    ((MagicNumber.mk3 start format (.regex f), li) :: rest) last
                    = magicGo head false rest (some len) := by
                  simp [magicGo, hstr, hre, hlen, hbl]
                have hm : ruleMatches head false
                    (MagicNumber.mk3 start format (.regex f)) = false := by
                  simp [ruleMatches, hstr, hre, hlen, hbl]
                rw [hgo, ih (some len) hwfrest]
                simp [List.find?, hm]
            · have hgo : magicGo head false
                  ((MagicNumber.mk3 start format pat, li) :: rest) last
                  = magicGo head false rest (some len) := by
                simp [magicGo, hstr, hre, hlen, hbl]
              have hm : ruleMatches head false
                  (MagicNumber.mk3 start format pat) = false := by
                simp [ruleMatches, hstr, hre, hlen, hbl]
              rw [hgo, ih (some len) hwfrest]
              simp [List.find?, hm]

/-- Claim C4, counterexample: probing order is NOT Catalog registration
order. The catalog registers c4Li1 before c4Li2 and both rules match the
window "#!", but the source flattens the table by iterating a Python 2
dict's values(), whose hash-determined order is any enumeration of the
stored values: under the admissible enumeration [c4Li2, c4Li1] (a
permutation of the registered values) probing returns the
LATER-registered descriptor c4Li2. -/
theorem magic_registration_order_counterexample :
    c4Db.map Prod.snd = [c4Li1, c4Li2]
    ∧ List.Perm [c4Li2, c4Li1] (c4Db.map Prod.snd)
    ∧ ruleMatches ['#', '!'] false (MagicNumber.mk3 0 "string" (.str ['#'])) = true
    ∧ ruleMatches ['#', '!'] false (MagicNumber.mk3 0 "string" (.str ['#', '!'])) = true
    ∧ magicGo ['#', '!'] false (build_magic_table_from [c4Li2, c4Li1]) none
        = .ok (some c4Li2)
    ∧ c4Li1 ≠ c4Li2 :=
  ⟨rfl, List.Perm.swap c4Li1 c4Li2 [], rfl, rfl, rfl,
   fun h => absurd (congrArg LangInfo.name h) (by decide)⟩

/-- Claim C4, amended: the magic table is a single ordered list flattened
across all Descriptors in the order the catalog dict enumerates its
values (each Descriptor's rules contiguous, in declaration order; in
Python 2 the enumeration is hash-determined, some permutation of the
stored values, not necessarily registration order). Under EVERY
admissible enumeration, the table holds exactly the registered rules (it
is a permutation of the registration-order table) and probing a table of
well-formed rules raises nothing and returns the first structural match
in that flattened table order. Of two matching rules, the one earlier in
the table wins; across descriptors which one that is depends on the
enumeration, not on registration order. -/
theorem magic_first_match_any_order (db : Database) (vals : List LangInfo)
    (head : List Char) (sb : Bool)
    (hperm : List.Perm vals (db.map Prod.snd))
    (hwf : ∀ r ∈ build_magic_table_from vals, wellFormedRule r.1 = true) :
    List.Perm (build_magic_table_from vals) (build_magic_table db)
    ∧ magicGo head sb (build_magic_table_from vals) none
      = .ok (((build_magic_table_from vals).find?
          (fun r => ruleMatches head sb r.1)).map Prod.snd) := by
  constructor
  · have h2 : build_magic_table db = build_magic_table_from (db.map Prod.snd) := rfl
    rw [h2, build_magic_table_from_eq_flatMap, build_magic_table_from_eq_flatMap]
    exact hperm.flatMap_right _
  · exact magicGo_eq_find head sb (build_magic_table_from vals) none hwf

/-- Claim C4, witness: the amended statement at the concrete catalog,
under the enumeration that visits c4Li2 first: the first match in that
table order is c4Li2. -/
theorem magic_first_match_any_order_witness :
    magicGo ['#', '!'] false (build_magic_table_from [c4Li2, c4Li1]) none
      = .ok (some c4Li2) := by
  have hwf : ∀ r ∈ build_magic_table_from [c4Li2, c4Li1],
      wellFormedRule r.1 = true := by
    intro r hr
    have he : build_magic_table_from [c4Li2, c4Li1]
        = [(MagicNumber.mk3 0 "string" (.str ['#', '!']), c4Li2),
           (MagicNumber.mk3 0 "string" (.str ['#']), c4Li1)] := rfl
    rw [he] at hr
    simp only [List.mem_cons, List.not_mem_nil, or_false] at hr
    rcases hr with rfl | rfl <;> rfl
  rw [(magic_first_match_any_order c4Db [c4Li2, c4Li1] ['#', '!'] false
    (List.Perm.swap c4Li1 c4Li2 []) hwf).2]
  rfl

end LangInfoDb
